import Mathlib

/-!
Verification of the user service of `go-user-api`
(`internal/service/user_service.go` and the repository contract in
`internal/repository`), shallowly embedded in Lean.

Modelling conventions:
* Go `int`/`int64` values are modelled as `Int`, with two's-complement
  wrapping applied explicitly (`wrap64`) at the arithmetic operations where
  the Go program can overflow, and `toInt32` modelling a Go `int32(...)`
  conversion (the target platform has 64-bit `int`).
* Go `time.Time` values carry only a calendar date here (`Date`), which is
  all the service reads (`Year`, `Month`, `Day`).
* `time.Now()` is an effect; service operations that call it receive the
  current date as an explicit `now` parameter.
* The repository (`UserRepository`) is a record of pure functions returning
  `Except ε _`, parametric in the store-error type `ε`; service operations
  return the service result paired with the trace of gateway calls made.
-/

namespace GoUserApi

/-- A calendar date, the part of a Go `time.Time` the service reads. -/
structure Date where
  year : Int
  month : Nat
  day : Nat
deriving DecidableEq

/-- Two's-complement wrap of an integer into signed 64-bit range, the
behaviour of overflowing Go `int`/`int64` arithmetic. -/
def wrap64 (n : Int) : Int :=
  (n + 2 ^ 63) % 2 ^ 64 - 2 ^ 63

/-- Go `int32(n)` conversion from a 64-bit integer: truncation to the low
32 bits, read as a signed 32-bit value. -/
def toInt32 (n : Int) : Int :=
  (n + 2 ^ 31) % 2 ^ 32 - 2 ^ 31

/-- Gregorian leap-year test, as Go's `time` package computes it
(`y%4 == 0 && (y%100 != 0 || y%400 == 0)`). -/
def isLeapYear (y : Int) : Bool :=
  y % 4 == 0 && (y % 100 != 0 || y % 400 == 0)

/-- Days in a month, as Go's `time` package uses to validate a parsed day. -/
def daysIn (year : Int) (month : Nat) : Nat :=
  if month = 2 then (if isLeapYear year then 29 else 28)
  else if month = 4 ∨ month = 6 ∨ month = 9 ∨ month = 11 then 30
  else 31

/-- Decimal digit test `'0' ≤ c ≤ '9'`. -/
def isDigit (c : Char) : Bool :=
  '0' ≤ c && c ≤ '9'

/-- Numeric value of a decimal digit character. -/
def digitVal (c : Char) : Nat :=
  c.toNat - '0'.toNat

/-- Go `time.Parse("2006-01-02", s)`: succeeds exactly on strings of the
shape `DDDD-DD-DD` (four year digits, two month digits, two day digits,
nothing else) whose month is in `1..12` and whose day is in
`1..daysIn(year, month)`; returns the parsed date. -/
def parseDate (s : String) : Option Date :=
  match s.toList with
  | [y1, y2, y3, y4, s1, m1, m2, s2, d1, d2] =>
    if isDigit y1 && isDigit y2 && isDigit y3 && isDigit y4 &&
       s1 == '-' && isDigit m1 && isDigit m2 &&
       s2 == '-' && isDigit d1 && isDigit d2 then
      let year : Int :=
        (1000 * digitVal y1 + 100 * digitVal y2 + 10 * digitVal y3 + digitVal y4 : Nat)
      let month := 10 * digitVal m1 + digitVal m2
      let day := 10 * digitVal d1 + digitVal d2
      if 1 ≤ month ∧ month ≤ 12 ∧ 1 ≤ day ∧ day ≤ daysIn year month then
        some { year := year, month := month, day := day }
      else none
    else none
  | _ => none

/-- Left-pad the decimal form of `n` with zeros to width 2
(Go `Format` layout `01` / `02`). -/
def pad2 (n : Nat) : String :=
  if n < 10 then "0" ++ toString n else toString n

/-- Left-pad the decimal form of `n` with zeros to width 4
(Go `Format` layout `2006`, for the nonnegative years this code meets). -/
def pad4 (n : Nat) : String :=
  if n < 10 then "000" ++ toString n
  else if n < 100 then "00" ++ toString n
  else if n < 1000 then "0" ++ toString n
  else toString n

/-- Go `t.Format("2006-01-02")` on a date value. -/
def formatDate (d : Date) : String :=
  pad4 d.year.toNat ++ "-" ++ pad2 d.month ++ "-" ++ pad2 d.day

/-- Model of `userService.CalculateAge`, with `time.Now()` passed explicitly:
`age := now.Year() - dob.Year()`, decremented when
`now.Month() < dob.Month() || (now.Month() == dob.Month() && now.Day() < dob.Day())`. -/
def calculateAge (now dob : Date) : Int :=
  let age := now.year - dob.year
  if now.month < dob.month ∨ (now.month = dob.month ∧ now.day < dob.day) then
    age - 1
  else
    age

/-- Strict chronological order on dates (year, then month, then day). -/
def dateLt (a b : Date) : Prop :=
  a.year < b.year ∨
    (a.year = b.year ∧ (a.month < b.month ∨ (a.month = b.month ∧ a.day < b.day)))

instance (a b : Date) : Decidable (dateLt a b) := by
  unfold dateLt; infer_instance

/-- The row type `db.User` produced by the store, restricted to the fields
the service reads (`ID`, `Name`, `Dob`). -/
structure DbUser where
  id : Int
  name : String
  dob : Date
deriving DecidableEq

/-- One gateway (repository) call, with the arguments the service passed. -/
inductive Call where
  | create (name dob : String)
  | getByID (id : Int)
  | list (limit offset : Int)
  | count
  | update (id : Int) (name dob : String)
  | delete (id : Int)
deriving DecidableEq

/-- The `repository.UserRepository` contract, as a record of pure functions;
`ε` is the store's error type (not-found, constraint violation, ...). -/
structure UserRepository (ε : Type) where
  create : String → String → Except ε DbUser
  getByID : Int → Except ε DbUser
  list : Int → Int → Except ε (List DbUser)
  count : Except ε Int
  update : Int → String → String → Except ε DbUser
  delete : Int → Except ε Unit

/-- A service-level error: a validation error created by the service itself
(`errors.New(msg)`), or a store error passed through from the gateway. -/
inductive SvcError (ε : Type) where
  | validation (msg : String)
  | store (e : ε)
deriving DecidableEq

/-- Injection of a gateway result into the service result type: the value or
the store error is returned unchanged. -/
def liftStore {ε α : Type} : Except ε α → Except (SvcError ε) α
  | .ok a => .ok a
  | .error e => .error (.store e)

/-- Model of `models.UserResponse` for list entries: id, name, formatted DOB, age. -/
structure UserResponse where
  id : Int
  name : String
  dob : String
  age : Int
deriving DecidableEq

/-- Model of `models.UsersListResponse`, the pagination envelope. -/
structure UsersListResponse where
  data : List UserResponse
  total : Int
  page : Int
  limit : Int
  totalPages : Int
deriving DecidableEq

/-- Page clamp `if page < 1, page = 1` performed by `ListUsers`. -/
def normPage (page : Int) : Int :=
  if page < 1 then 1 else page

/-- Limit clamp performed by `ListUsers`: `limit = 10` when `limit < 1`,
then `limit = 100` when `limit > 100`. -/
def normLimit (limit : Int) : Int :=
  let limit := if limit < 1 then 10 else limit
  if limit > 100 then 100 else limit

/-- Model of `userService.CreateUser`: reject empty name, then a date string
`time.Parse` rejects, else delegate to `repo.Create`. The second component
is the trace of gateway calls performed. -/
def createUser (ε : Type) (repo : UserRepository ε) (name dob : String) :
    Except (SvcError ε) DbUser × List Call :=
  if name = "" then
    (.error (.validation "name cannot be empty"), [])
  else if (parseDate dob).isNone then
    (.error (.validation "invalid date format, use YYYY-MM-DD"), [])
  else
    (liftStore (repo.create name dob), [.create name dob])

/-- Model of `userService.GetUserByID`: direct delegation. -/
def getUserByID (ε : Type) (repo : UserRepository ε) (id : Int) :
    Except (SvcError ε) DbUser × List Call :=
  (liftStore (repo.getByID id), [.getByID id])

/-- Model of `userService.ListUsers`: clamp page and limit, compute
`offset := (page-1)*limit` in native `int` arithmetic, fetch the count and
the page slice (`repo.List(int32(limit), int32(offset))`), compute
`totalPages := int((total + int64(limit) - 1) / int64(limit))` with Go's
truncating division, and map rows to responses with derived ages. -/
def listUsers (ε : Type) (repo : UserRepository ε) (now : Date) (page limit : Int) :
    Except (SvcError ε) UsersListResponse × List Call :=
  let page := normPage page
  let limit := normLimit limit
  let offset := wrap64 ((page - 1) * limit)
  match repo.count with
  | .error e => (.error (.store e), [.count])
  | .ok total =>
    match repo.list (toInt32 limit) (toInt32 offset) with
    | .error e => (.error (.store e), [.count, .list (toInt32 limit) (toInt32 offset)])
    | .ok users =>
      let totalPages := Int.tdiv (wrap64 (total + limit - 1)) limit
      let responseData := users.map (fun u =>
        { id := u.id, name := u.name, dob := formatDate u.dob,
          age := calculateAge now u.dob : UserResponse })
      (.ok { data := responseData, total := total, page := page, limit := limit,
             totalPages := totalPages },
       [.count, .list (toInt32 limit) (toInt32 offset)])

/-- Model of `userService.UpdateUser`: the same validation as `CreateUser`, then
delegation to `repo.Update`. -/
def updateUser (ε : Type) (repo : UserRepository ε) (id : Int) (name dob : String) :
    Except (SvcError ε) DbUser × List Call :=
  if name = "" then
    (.error (.validation "name cannot be empty"), [])
  else if (parseDate dob).isNone then
    (.error (.validation "invalid date format, use YYYY-MM-DD"), [])
  else
    (liftStore (repo.update id name dob), [.update id name dob])

/-- Model of `userService.DeleteUser`: direct delegation. -/
def deleteUser (ε : Type) (repo : UserRepository ε) (id : Int) :
    Except (SvcError ε) Unit × List Call :=
  (liftStore (repo.delete id), [.delete id])

instance {ε α : Type} [DecidableEq ε] [DecidableEq α] : DecidableEq (Except ε α) :=
  fun x y =>
    match x, y with
    | .ok u, .ok v => if h : u = v then .isTrue (by rw [h]) else .isFalse (by simp [h])
    | .error u, .error v => if h : u = v then .isTrue (by rw [h]) else .isFalse (by simp [h])
    | .ok _, .error _ => .isFalse (by simp)
    | .error _, .ok _ => .isFalse (by simp)

/-- A store stand-in whose every operation succeeds: the count is 0, the
page slice is empty, and writes echo a fixed row. -/
def okRepo : UserRepository Unit where
  create _ _ := .ok { id := 1, name := "u", dob := { year := 2000, month := 1, day := 2 } }
  getByID _ := .ok { id := 1, name := "u", dob := { year := 2000, month := 1, day := 2 } }
  list _ _ := .ok []
  count := .ok 0
  update _ _ _ := .ok { id := 1, name := "u", dob := { year := 2000, month := 1, day := 2 } }
  delete _ := .ok ()

/-- A store stand-in reporting `n` total rows and an empty page slice. -/
def countRepo (n : Int) : UserRepository Unit where
  create _ _ := .ok { id := 1, name := "u", dob := { year := 2000, month := 1, day := 2 } }
  getByID _ := .ok { id := 1, name := "u", dob := { year := 2000, month := 1, day := 2 } }
  list _ _ := .ok []
  count := .ok n
  update _ _ _ := .ok { id := 1, name := "u", dob := { year := 2000, month := 1, day := 2 } }
  delete _ := .ok ()

/-- A store stand-in whose every operation fails with the store error `()`
(standing for, e.g., a not-found row). -/
def failRepo : UserRepository Unit where
  create _ _ := .error ()
  getByID _ := .error ()
  list _ _ := .error ()
  count := .error ()
  update _ _ _ := .error ()
  delete _ := .error ()

/-- The fixed current date `2024-06-15` used by the spec's age examples. -/
def now2024 : Date := { year := 2024, month := 6, day := 15 }

/-! ### Helper lemmas -/

theorem wrap64_eq_of_bounds {n : Int} (h0 : 0 ≤ n) (h : n < 2 ^ 63) : wrap64 n = n := by
  unfold wrap64
  rw [Int.emod_eq_of_lt (by omega) (by omega)]
  omega

theorem toInt32_eq_of_bounds {n : Int} (h0 : 0 ≤ n) (h : n < 2 ^ 31) : toInt32 n = n := by
  unfold toInt32
  rw [Int.emod_eq_of_lt (by omega) (by omega)]
  omega

theorem one_le_normPage (p : Int) : 1 ≤ normPage p := by
  simp only [normPage]; split_ifs <;> omega

theorem normPage_idem (p : Int) : normPage (normPage p) = normPage p := by
  simp only [normPage]; split_ifs <;> omega

theorem normLimit_bounds (l : Int) : 1 ≤ normLimit l ∧ normLimit l ≤ 100 := by
  simp only [normLimit]; split_ifs <;> omega

theorem normLimit_idem (l : Int) : normLimit (normLimit l) = normLimit l := by
  simp only [normLimit]; split_ifs <;> omega

theorem normLimit_of_bounds {l : Int} (h1 : 1 ≤ l) (h2 : l ≤ 100) : normLimit l = l := by
  simp only [normLimit]; split_ifs <;> omega

/-- A successful `listUsers` run determines the envelope: the count and the
page slice both succeeded, and every envelope field is as computed from the
normalized page and limit. -/
theorem listUsers_ok (ε : Type) (repo : UserRepository ε) (now : Date)
    (page limit : Int) (env : UsersListResponse)
    (h : (listUsers ε repo now page limit).1 = .ok env) :
    ∃ total users, repo.count = .ok total ∧
      repo.list (toInt32 (normLimit limit))
        (toInt32 (wrap64 ((normPage page - 1) * normLimit limit))) = .ok users ∧
      env = { data := users.map (fun u =>
                { id := u.id, name := u.name, dob := formatDate u.dob,
                  age := calculateAge now u.dob : UserResponse }),
              total := total, page := normPage page, limit := normLimit limit,
              totalPages := Int.tdiv (wrap64 (total + normLimit limit - 1))
                              (normLimit limit) } := by
  simp only [listUsers] at h
  cases hc : repo.count with
  | error e => rw [hc] at h; simp at h
  | ok total =>
    rw [hc] at h
    cases hl : repo.list (toInt32 (normLimit limit))
        (toInt32 (wrap64 ((normPage page - 1) * normLimit limit))) with
    | error e => rw [hl] at h; simp at h
    | ok users =>
      rw [hl] at h
      simp only [Except.ok.injEq] at h
      exact ⟨total, users, rfl, rfl, h.symm⟩

/-- The gateway calls a `listUsers` run performs: the count, then (when the
count succeeded) one list call with the truncated limit and offset. -/
theorem listUsers_trace (ε : Type) (repo : UserRepository ε) (now : Date)
    (page limit : Int) :
    (listUsers ε repo now page limit).2 = [.count] ∨
    (listUsers ε repo now page limit).2 =
      [.count, .list (toInt32 (normLimit limit))
                 (toInt32 (wrap64 ((normPage page - 1) * normLimit limit)))] := by
  simp only [listUsers]
  cases hc : repo.count with
  | error e => left; rfl
  | ok total =>
    cases hl : repo.list (toInt32 (normLimit limit))
        (toInt32 (wrap64 ((normPage page - 1) * normLimit limit))) with
    | error e => right; rfl
    | ok users => right; rfl

/-! ### Claims -/

/-- Claim C1: `CalculateAge(dob)`, evaluated at any current date `now`,
returns `currentYear - birthYear`, decremented by 1 exactly when
`(currentMonth, currentDay)` is lexicographically before
`(birthMonth, birthDay)`; in particular, for `now = 2024-06-15`:
`2000-06-15 ↦ 24`, `2000-06-16 ↦ 23`, `2000-06-14 ↦ 24`, `2024-06-15 ↦ 0`. -/
theorem c1_calculateAge_spec :
    (∀ now dob : Date,
      calculateAge now dob =
        now.year - dob.year -
          (if now.month < dob.month ∨ (now.month = dob.month ∧ now.day < dob.day)
           then 1 else 0)) ∧
    calculateAge now2024 { year := 2000, month := 6, day := 15 } = 24 ∧
    calculateAge now2024 { year := 2000, month := 6, day := 16 } = 23 ∧
    calculateAge now2024 { year := 2000, month := 6, day := 14 } = 24 ∧
    calculateAge now2024 { year := 2024, month := 6, day := 15 } = 0 := by
  refine ⟨fun now dob => ?_, by decide, by decide, by decide, by decide⟩
  show (if now.month < dob.month ∨ (now.month = dob.month ∧ now.day < dob.day) then
          now.year - dob.year - 1 else now.year - dob.year) = _
  split <;> omega

/-- Claim C4: `CreateUser(name, dob)` fails with a validation error iff the
name is empty or the date string does not parse as `YYYY-MM-DD`; on every
other input it delegates to the gateway's create operation and returns its
result unchanged, store errors included. -/
theorem c4_createUser_validation_iff (ε : Type) (repo : UserRepository ε)
    (name dob : String) :
    ((∃ msg, (createUser ε repo name dob).1 = .error (.validation msg)) ↔
      (name = "" ∨ (parseDate dob).isNone)) ∧
    (name ≠ "" → (parseDate dob).isSome →
      ((createUser ε repo name dob).1 = liftStore (repo.create name dob) ∧
       (∀ u, repo.create name dob = .ok u → (createUser ε repo name dob).1 = .ok u) ∧
       (∀ e, repo.create name dob = .error e →
          (createUser ε repo name dob).1 = .error (.store e)))) := by
  constructor
  · constructor
    · rintro ⟨msg, hmsg⟩
      by_cases hn : name = ""
      · exact .inl hn
      by_cases hd : (parseDate dob).isNone
      · exact .inr hd
      · exfalso
        simp only [createUser, if_neg hn, hd, if_false, Bool.false_eq_true] at hmsg
        cases hcr : repo.create name dob <;>
          simp [hcr, liftStore] at hmsg
    · rintro (hn | hd)
      · exact ⟨"name cannot be empty", by simp [createUser, hn]⟩
      · by_cases hn : name = ""
        · exact ⟨"name cannot be empty", by simp [createUser, hn]⟩
        · exact ⟨"invalid date format, use YYYY-MM-DD", by simp [createUser, hn, hd]⟩
  · intro hn hd
    have hd' : (parseDate dob).isNone = false := by
      simp [Option.isNone_eq_false_iff, ← Option.isSome_iff_ne_none, hd]
    refine ⟨by simp [createUser, hn, hd'], ?_, ?_⟩
    · intro u hu; simp [createUser, hn, hd', hu, liftStore]
    · intro e he; simp [createUser, hn, hd', he, liftStore]

/-- Claim C4 witness: concrete instances of the validation
characterization. -/
theorem c4_witness :
    (∃ msg, (createUser Unit okRepo "" "1990-01-01").1 = .error (.validation msg)) ∧
    (∃ msg, (createUser Unit okRepo "Alice" "not-a-date").1 = .error (.validation msg)) ∧
    ((createUser Unit okRepo "Alice" "1990-01-01").1 =
       .ok { id := 1, name := "u", dob := { year := 2000, month := 1, day := 2 } }) :=
  ⟨(c4_createUser_validation_iff Unit okRepo "" "1990-01-01").1.2 (.inl rfl),
   (c4_createUser_validation_iff Unit okRepo "Alice" "not-a-date").1.2 (.inr (by decide)),
   ((c4_createUser_validation_iff Unit okRepo "Alice" "1990-01-01").2
      (by decide) (by decide)).2.1 _ rfl⟩

/-- Claim C5: when `CreateUser` or `UpdateUser` fails validation (empty name
or malformed date string), the service returns the validation error before
performing any gateway call: the call trace is empty. -/
theorem c5_validation_fails_before_store (ε : Type) (repo : UserRepository ε)
    (id : Int) (name dob : String)
    (h : name = "" ∨ (parseDate dob).isNone) :
    (createUser ε repo name dob).2 = [] ∧
    (∃ msg, (createUser ε repo name dob).1 = .error (.validation msg)) ∧
    (updateUser ε repo id name dob).2 = [] ∧
    (∃ msg, (updateUser ε repo id name dob).1 = .error (.validation msg)) := by
  by_cases hn : name = ""
  · exact ⟨by simp [createUser, hn], ⟨"name cannot be empty", by simp [createUser, hn]⟩,
      by simp [updateUser, hn], ⟨"name cannot be empty", by simp [updateUser, hn]⟩⟩
  · have hd : (parseDate dob).isNone := by tauto
    exact ⟨by simp [createUser, hn, hd],
      ⟨"invalid date format, use YYYY-MM-DD", by simp [createUser, hn, hd]⟩,
      by simp [updateUser, hn, hd],
      ⟨"invalid date format, use YYYY-MM-DD", by simp [updateUser, hn, hd]⟩⟩

/-- Claim C5 witness: a malformed date reaches neither gateway operation. -/
theorem c5_witness :
    (createUser Unit okRepo "Alice" "15-06-1990x").2 = [] ∧
    (∃ msg, (createUser Unit okRepo "Alice" "15-06-1990x").1 = .error (.validation msg)) ∧
    (updateUser Unit okRepo 7 "Alice" "15-06-1990x").2 = [] ∧
    (∃ msg, (updateUser Unit okRepo 7 "Alice" "15-06-1990x").1 = .error (.validation msg)) :=
  c5_validation_fails_before_store Unit okRepo 7 "Alice" "15-06-1990x" (.inr (by decide))

/-- Claim C6: `UpdateUser` applies exactly the validation of `CreateUser` —
it rejects `(name, dob)` with a given validation error exactly when
`CreateUser` does — and when validation passes it delegates to the gateway's
update operation, propagating the gateway's error (e.g. not-found)
unchanged. -/
theorem c6_updateUser_same_validation (ε : Type) (repo : UserRepository ε)
    (id : Int) (name dob : String) :
    (∀ msg, (updateUser ε repo id name dob).1 = .error (.validation msg) ↔
            (createUser ε repo name dob).1 = .error (.validation msg)) ∧
    (name ≠ "" → (parseDate dob).isSome →
      ((updateUser ε repo id name dob).1 = liftStore (repo.update id name dob) ∧
       (∀ e, repo.update id name dob = .error e →
          (updateUser ε repo id name dob).1 = .error (.store e)))) := by
  constructor
  · intro msg
    by_cases hn : name = ""
    · simp [createUser, updateUser, hn]
    by_cases hd : (parseDate dob).isNone
    · simp [createUser, updateUser, hn, hd]
    · constructor
      · intro h; exfalso
        simp only [updateUser, if_neg hn, hd, if_false, Bool.false_eq_true] at h
        cases hu : repo.update id name dob <;> simp [hu, liftStore] at h
      · intro h; exfalso
        simp only [createUser, if_neg hn, hd, if_false, Bool.false_eq_true] at h
        cases hc : repo.create name dob <;> simp [hc, liftStore] at h
  · intro hn hd
    have hd' : (parseDate dob).isNone = false := by
      simp [Option.isNone_eq_false_iff, ← Option.isSome_iff_ne_none, hd]
    refine ⟨by simp [updateUser, hn, hd'], ?_⟩
    intro e he; simp [updateUser, hn, hd', he, liftStore]

/-- Claim C6 witness: concrete agreement of the two validations and a
propagated store error on update. -/
theorem c6_witness :
    ((updateUser Unit okRepo 3 "" "1990-01-01").1 =
        .error (.validation "name cannot be empty") ↔
      (createUser Unit okRepo "" "1990-01-01").1 =
        .error (.validation "name cannot be empty")) ∧
    (updateUser Unit failRepo 3 "Alice" "1990-01-01").1 = .error (.store ()) :=
  ⟨(c6_updateUser_same_validation Unit okRepo 3 "" "1990-01-01").1 "name cannot be empty",
   (c6_updateUser_same_validation Unit failRepo 3 "Alice" "1990-01-01").2
     (by decide) (by decide) |>.2 () rfl⟩

/-- Claim C7 counterexample: validation does not enforce the 2–100 character
bound — the one-character name `"A"` with a well-formed date is accepted and
passed to the store, not rejected. -/
theorem c7_counterexample :
    "A".length = 1 ∧
    (createUser Unit okRepo "A" "1990-01-01").1 =
      .ok { id := 1, name := "u", dob := { year := 2000, month := 1, day := 2 } } ∧
    (createUser Unit okRepo "A" "1990-01-01").2 = [.create "A" "1990-01-01"] := by
  refine ⟨rfl, by decide, by decide⟩

/-- Claim C7 (amended): `CreateUser`/`UpdateUser` validation checks only
that the name is non-empty and the date parses — any non-empty name of any
length is admitted when the store accepts it; in particular every
`(name, dob)` with name length in `[2, 100]` and `dob` matching
`YYYY-MM-DD` is accepted (assuming store availability). -/
theorem c7_name_validation (ε : Type) (repo : UserRepository ε) (id : Int)
    (name dob : String) (u v : DbUser)
    (hn : 1 ≤ name.length) (hd : (parseDate dob).isSome)
    (hc : repo.create name dob = .ok u) (hu : repo.update id name dob = .ok v) :
    (createUser ε repo name dob).1 = .ok u ∧
    (updateUser ε repo id name dob).1 = .ok v := by
  have hn' : name ≠ "" := by
    intro h; rw [h] at hn; simp at hn
  have hd' : (parseDate dob).isNone = false := by
    simp [Option.isNone_eq_false_iff, ← Option.isSome_iff_ne_none, hd]
  constructor
  · simp [createUser, hn', hd', hc, liftStore]
  · simp [updateUser, hn', hd', hu, liftStore]

/-- Claim C7 witness: a name of length in `[2, 100]` with a well-formed date
is accepted by both operations. -/
theorem c7_witness :
    (createUser Unit okRepo "Alice" "1990-01-01").1 =
      .ok { id := 1, name := "u", dob := { year := 2000, month := 1, day := 2 } } ∧
    (updateUser Unit okRepo 3 "Alice" "1990-01-01").1 =
      .ok { id := 1, name := "u", dob := { year := 2000, month := 1, day := 2 } } :=
  c7_name_validation Unit okRepo 3 "Alice" "1990-01-01" _ _
    (by decide) (by decide) rfl rfl

/-- Claim C8: for a date of birth strictly after the current date,
`CalculateAge` returns a strictly negative integer (it neither errors nor
clamps at 0), and `CreateUser`'s validation still accepts such a future
date — it checks only that the string parses as `YYYY-MM-DD`, so it
delegates to the store regardless of how the parsed date compares to any
current date. -/
theorem c8_future_dob :
    (∀ now dob : Date, dateLt now dob → calculateAge now dob < 0) ∧
    (∀ (ε : Type) (repo : UserRepository ε) (name dobStr : String) (d now : Date),
      name ≠ "" → parseDate dobStr = some d → dateLt now d →
      (createUser ε repo name dobStr).1 = liftStore (repo.create name dobStr) ∧
      (createUser ε repo name dobStr).2 = [.create name dobStr]) := by
  constructor
  · intro now dob h
    unfold dateLt at h
    simp only [calculateAge]
    split <;> omega
  · intro ε repo name dobStr d now hn hp _
    have hd' : (parseDate dobStr).isNone = false := by
      simp [hp]
    exact ⟨by simp [createUser, hn, hd'], by simp [createUser, hn, hd']⟩

/-- Claim C8 witness: a birth date one day in the future of `2024-06-15`
yields age `-1`, and a far-future date of birth is accepted and delegated. -/
theorem c8_witness :
    calculateAge now2024 { year := 2024, month := 6, day := 16 } < 0 ∧
    (createUser Unit okRepo "Bob" "2999-12-31").1 =
      liftStore (okRepo.create "Bob" "2999-12-31") :=
  ⟨c8_future_dob.1 now2024 { year := 2024, month := 6, day := 16 } (by decide),
   (c8_future_dob.2 Unit okRepo "Bob" "2999-12-31"
      { year := 2999, month := 12, day := 31 } now2024
      (by decide) (by decide) (by decide)).1⟩

/-- Claim C2 (amended): `ListUsers` normalizes exactly as stated — page
clamped up to 1, limit defaulted to 10 when below 1 and capped at 100 —
so calling it is identical to calling it on the normalized arguments;
the offset handed to the gateway's list operation equals
`(page - 1) * limit` of the normalized values whenever that product fits a
signed 32-bit integer (the `int32` conversion in the code truncates larger
products — see the counterexample); `ListUsers(0, 0)` behaves identically
to `ListUsers(1, 10)`; and `ListUsers(1, 1000)` passes limit 100. -/
theorem c2_listUsers_normalization :
    (∀ (ε : Type) (repo : UserRepository ε) (now : Date) (page limit : Int),
      listUsers ε repo now page limit =
        listUsers ε repo now (normPage page) (normLimit limit)) ∧
    (∀ (ε : Type) (repo : UserRepository ε) (now : Date) (page limit l o : Int),
      (normPage page - 1) * normLimit limit < 2 ^ 31 →
      Call.list l o ∈ (listUsers ε repo now page limit).2 →
      o = (normPage page - 1) * normLimit limit ∧ l = normLimit limit) ∧
    (∀ (ε : Type) (repo : UserRepository ε) (now : Date),
      listUsers ε repo now 0 0 = listUsers ε repo now 1 10) ∧
    (∀ (ε : Type) (repo : UserRepository ε) (now : Date) (l o : Int),
      Call.list l o ∈ (listUsers ε repo now 1 1000).2 → l = 100) := by
  have key : ∀ (ε : Type) (repo : UserRepository ε) (now : Date) (page limit : Int),
      listUsers ε repo now page limit =
        listUsers ε repo now (normPage page) (normLimit limit) := by
    intro ε repo now page limit
    simp only [listUsers, normPage_idem, normLimit_idem]
  refine ⟨key, ?_, ?_, ?_⟩
  · intro ε repo now page limit l o hfit hmem
    have hp := one_le_normPage page
    have hl := normLimit_bounds limit
    have hP0 : 0 ≤ (normPage page - 1) * normLimit limit :=
      mul_nonneg (by omega) (by omega)
    have hw : wrap64 ((normPage page - 1) * normLimit limit) =
        (normPage page - 1) * normLimit limit :=
      wrap64_eq_of_bounds hP0 (by omega)
    have ht : toInt32 ((normPage page - 1) * normLimit limit) =
        (normPage page - 1) * normLimit limit :=
      toInt32_eq_of_bounds hP0 hfit
    have htl : toInt32 (normLimit limit) = normLimit limit :=
      toInt32_eq_of_bounds (by omega) (by omega)
    rcases listUsers_trace ε repo now page limit with htr | htr <;> rw [htr] at hmem
    · simp at hmem
    · rw [hw, ht, htl] at hmem
      simp only [List.mem_cons, List.not_mem_nil, or_false] at hmem
      rcases hmem with hmem | hmem
      · exact absurd hmem (by simp)
      · obtain ⟨h1, h2⟩ := Call.list.inj hmem
        exact ⟨h2, h1⟩
  · intro ε repo now
    rw [key ε repo now 0 0, key ε repo now 1 10]
    norm_num [normPage, normLimit]
  · intro ε repo now l o hmem
    have htl : toInt32 (normLimit 1000) = 100 := by decide
    rcases listUsers_trace ε repo now 1 1000 with htr | htr <;> rw [htr] at hmem
    · simp at hmem
    · rw [htl] at hmem
      simp only [List.mem_cons, List.not_mem_nil, or_false] at hmem
      rcases hmem with hmem | hmem
      · exact absurd hmem (by simp)
      · exact (Call.list.inj hmem).1

/-- Claim C2 counterexample: at `page = 2^31 + 1, limit = 1` the offset the
gateway receives is `-2^31`, not the normalized `(page - 1) * limit = 2^31`:
the claim's unconditional offset equation fails on the code because of the
`int32` conversion. -/
theorem c2_counterexample :
    (listUsers Unit okRepo now2024 (2 ^ 31 + 1) 1).2 =
      [.count, .list 1 (-(2 ^ 31))] ∧
    (-(2 ^ 31) : Int) ≠ (normPage (2 ^ 31 + 1) - 1) * normLimit 1 := by
  decide

/-- Claim C2 witness: `ListUsers(5, 20)` passes offset `80 = (5 - 1) * 20`
and limit `20` to the gateway. -/
theorem c2_witness :
    (80 : Int) = (normPage 5 - 1) * normLimit 20 ∧ (20 : Int) = normLimit 20 :=
  c2_listUsers_normalization.2.1 Unit okRepo now2024 5 20 20 80 (by decide) (by decide)

/-- Claim C3 (amended): for every nonnegative total and limit in `[1, 100]`,
as long as `total + limit - 1` does not overflow a signed 64-bit integer,
the `totalPages` field of a successful `ListUsers` envelope equals the
integer ceiling division `(total + limit - 1) / limit`; in particular
`total = 25, limit = 10` gives 3 and `total = 20, limit = 10` gives 2. -/
theorem c3_totalPages_ceiling :
    (∀ (ε : Type) (repo : UserRepository ε) (now : Date)
       (page limit total : Int) (env : UsersListResponse),
      repo.count = .ok total → 0 ≤ total → 1 ≤ limit → limit ≤ 100 →
      total + limit - 1 < 2 ^ 63 →
      (listUsers ε repo now page limit).1 = .ok env →
      env.totalPages = (total + limit - 1) / limit) ∧
    ((listUsers Unit (countRepo 25) now2024 1 10).1 =
      .ok { data := [], total := 25, page := 1, limit := 10, totalPages := 3 }) ∧
    ((listUsers Unit (countRepo 20) now2024 1 10).1 =
      .ok { data := [], total := 20, page := 1, limit := 10, totalPages := 2 }) := by
  refine ⟨?_, by decide, by decide⟩
  intro ε repo now page limit total env hc h0 h1 h2 hof h
  obtain ⟨total', users, hc', -, henv⟩ := listUsers_ok ε repo now page limit env h
  rw [hc] at hc'
  simp only [Except.ok.injEq] at hc'
  subst hc'
  subst henv
  have hlim : normLimit limit = limit := normLimit_of_bounds h1 h2
  show Int.tdiv (wrap64 (total + normLimit limit - 1)) (normLimit limit) = _
  rw [hlim, wrap64_eq_of_bounds (by omega) hof, Int.tdiv_eq_ediv (by omega) (by omega)]

/-- Claim C3 counterexample: at `total = 2^63 - 1, limit = 10` the int64 sum
`total + limit - 1` wraps and the code returns a negative `totalPages`,
not the ceiling `(total + limit - 1) / limit`: the claim's quantification
over every nonnegative total fails at the top of the int64 range. -/
theorem c3_counterexample :
    (listUsers Unit (countRepo (2 ^ 63 - 1)) now2024 1 10).1 =
      .ok { data := [], total := 2 ^ 63 - 1, page := 1, limit := 10,
            totalPages := -922337203685477580 } ∧
    (-922337203685477580 : Int) ≠ (2 ^ 63 - 1 + 10 - 1) / 10 := by
  decide

/-- Claim C3 witness: the ceiling formula realized at `total = 25`,
`limit = 10` on a successful run. -/
theorem c3_witness :
    ({ data := [], total := 25, page := 1, limit := 10, totalPages := 3 } :
        UsersListResponse).totalPages = (25 + 10 - 1) / 10 :=
  c3_totalPages_ceiling.1 Unit (countRepo 25) now2024 1 10 25
    { data := [], total := 25, page := 1, limit := 10, totalPages := 3 }
    rfl (by decide) (by decide) (by decide) (by decide) (by decide)

/-- Claim C9: a successful `ListUsers` envelope reports the normalized page
and limit, not the caller-supplied arguments: page is `max page 1` and
limit is the input clamped into `[1, 100]` with default 10. -/
theorem c9_envelope_normalized (ε : Type) (repo : UserRepository ε) (now : Date)
    (page limit : Int) (env : UsersListResponse)
    (h : (listUsers ε repo now page limit).1 = .ok env) :
    env.page = max page 1 ∧
    env.limit = if limit < 1 then 10 else min limit 100 := by
  obtain ⟨total, users, -, -, henv⟩ := listUsers_ok ε repo now page limit env h
  subst henv
  constructor
  · show normPage page = max page 1
    simp only [normPage]; split_ifs <;> omega
  · show normLimit limit = _
    simp only [normLimit]; split_ifs <;> omega

/-- Claim C9 witness: `ListUsers(0, 1000)` reports page 1 and limit 100. -/
theorem c9_witness :
    ({ data := [], total := 0, page := 1, limit := 100, totalPages := 0 } :
        UsersListResponse).page = max 0 1 ∧
    ({ data := [], total := 0, page := 1, limit := 100, totalPages := 0 } :
        UsersListResponse).limit = if (1000 : Int) < 1 then 10 else min 1000 100 :=
  c9_envelope_normalized Unit okRepo now2024 0 1000
    { data := [], total := 0, page := 1, limit := 100, totalPages := 0 } (by decide)

/-- Claim C10: the offset handed to the gateway's list operation is the
normalized `(page - 1) * limit`, computed in 64-bit integer arithmetic and
then truncated to a signed 32-bit integer; whenever the product is below
`2^31` this is the exact product, but for larger pages the truncation wraps
and the gateway receives a negative offset — no guard keeps the product in
32-bit range. -/
theorem c10_offset_int32_truncation :
    (∀ (ε : Type) (repo : UserRepository ε) (now : Date) (page limit l o : Int),
      Call.list l o ∈ (listUsers ε repo now page limit).2 →
      o = toInt32 (wrap64 ((normPage page - 1) * normLimit limit))) ∧
    (∀ page limit : Int, 1 ≤ page → 1 ≤ limit → limit ≤ 100 →
      (page - 1) * limit < 2 ^ 31 →
      toInt32 (wrap64 ((page - 1) * limit)) = (page - 1) * limit) ∧
    (Call.list 1 (-(2 ^ 31)) ∈ (listUsers Unit okRepo now2024 (2 ^ 31 + 1) 1).2 ∧
      (-(2 ^ 31) : Int) < 0) := by
  refine ⟨?_, ?_, by decide, by decide⟩
  · intro ε repo now page limit l o hmem
    rcases listUsers_trace ε repo now page limit with htr | htr <;> rw [htr] at hmem
    · simp at hmem
    · simp only [List.mem_cons, List.not_mem_nil, or_false] at hmem
      rcases hmem with hmem | hmem
      · exact absurd hmem (by simp)
      · exact (Call.list.inj hmem).2
  · intro page limit hp h1 h2 hfit
    have hP0 : 0 ≤ (page - 1) * limit := mul_nonneg (by omega) (by omega)
    rw [wrap64_eq_of_bounds hP0 (by omega), toInt32_eq_of_bounds hP0 hfit]

/-- Claim C10 witness: within 32-bit range the truncation is the identity —
page 5 and limit 20 give offset exactly `(5 - 1) * 20`. -/
theorem c10_witness :
    toInt32 (wrap64 ((5 - 1) * 20)) = (5 - 1) * 20 :=
  c10_offset_int32_truncation.2.1 5 20 (by decide) (by decide) (by decide) (by decide)

end GoUserApi
